import Mathlib

/-!
Verification development for the ALICE FIX Gateway.

The repository's visible sources are the dashboard UI and the HTTP client
(`src/frontend/...`, `src/unnamed/part_000`).  The FIX engine core (field
dictionary, wire codec, validation engine, session registry, send pipeline) is
not part of the visible sources; following the specification document, those
components are modelled here directly from the spec's component design
(sections 4.1 to 4.5).  The UI store, the HTTP client helper and the console's
field-map builder are embedded from the TypeScript sources.
-/

/-! ## Basic characters and digit rendering -/

/-- The SOH (start of heading, 0x01) delimiter character. -/
def SOH : Char := Char.ofNat 1

/-- Is `c` an ASCII decimal digit? -/
def isDigitCh (c : Char) : Bool := 48 ≤ c.toNat && c.toNat ≤ 57

/-- The decimal digit character for a value below ten. -/
def digitChar : Nat → Char
  | 0 => '0' | 1 => '1' | 2 => '2' | 3 => '3' | 4 => '4'
  | 5 => '5' | 6 => '6' | 7 => '7' | 8 => '8' | 9 => '9'
  | _ => '?'

/-- Numeric value of a digit character. -/
def charToDigit (c : Char) : Nat := c.toNat - 48

/-- Fuel-driven decimal rendering, most significant digit first. -/
def natToCharsAux : Nat → Nat → List Char → List Char
  | 0, _, acc => acc
  | fuel + 1, n, acc =>
    if n < 10 then digitChar n :: acc
    else natToCharsAux fuel (n / 10) (digitChar (n % 10) :: acc)

/-- Decimal rendering of a natural number as a character list. -/
def natToChars (n : Nat) : List Char := natToCharsAux (n + 1) n []

/-- Parse a non-empty all-digit character list as a decimal natural number. -/
def parseNat? (cs : List Char) : Option Nat :=
  if cs.isEmpty then none
  else if cs.all isDigitCh then
    some (cs.foldl (fun a c => 10 * a + charToDigit c) 0)
  else none

/-- UTF-8 byte values of one character. -/
def utf8Bytes (c : Char) : List Nat :=
  let n := c.toNat
  if n < 128 then [n]
  else if n < 2048 then [192 + n / 64, 128 + n % 64]
  else if n < 65536 then [224 + n / 4096, 128 + n / 64 % 64, 128 + n % 64]
  else [240 + n / 262144, 128 + n / 4096 % 64, 128 + n / 64 % 64, 128 + n % 64]

/-- UTF-8 byte length of a character list. -/
def charsByteLen (cs : List Char) : Nat :=
  cs.foldl (fun a c => a + (utf8Bytes c).length) 0

/-- Sum of the UTF-8 byte values of a character list. -/
def charsByteSum (cs : List Char) : Nat :=
  cs.foldl (fun a c => a + (utf8Bytes c).foldl (· + ·) 0) 0

/-- UTF-8 byte length of a string. -/
def strBytes (s : String) : Nat := charsByteLen s.data

/-! ## Delimiter splitting and joining -/

/-- Split a character list on a delimiter character (like JS `split`). -/
def splitOnCh (d : Char) : List Char → List (List Char)
  | [] => [[]]
  | c :: cs =>
    if c = d then [] :: splitOnCh d cs
    else
      match splitOnCh d cs with
      | [] => [[c]]
      | s :: ss => (c :: s) :: ss

/-- Join segments, appending the delimiter after every segment. -/
def joinD (d : Char) (segs : List (List Char)) : List Char :=
  segs.foldr (fun s acc => s ++ d :: acc) []

/-! ## Field dictionary (modelled from the spec, section 4.1) -/

/-- Modelled from the spec: `tag_to_name` of the field dictionary (4.1); the
engine core is not among the visible sources.  Unknown tags are preserved by
number. -/
def tagToName (t : Nat) : String :=
  match t with
  | 8 => "BeginString"
  | 9 => "BodyLength"
  | 10 => "CheckSum"
  | 11 => "ClOrdID"
  | 34 => "MsgSeqNum"
  | 35 => "MsgType"
  | 38 => "OrderQty"
  | 40 => "OrdType"
  | 44 => "Price"
  | 49 => "SenderCompID"
  | 52 => "SendingTime"
  | 54 => "Side"
  | 55 => "Symbol"
  | 56 => "TargetCompID"
  | _ => Nat.repr t

/-- Modelled from the spec: `name_to_tag` of the field dictionary (4.1). -/
def nameToTag (n : String) : Option Nat :=
  match n with
  | "BeginString" => some 8
  | "BodyLength" => some 9
  | "CheckSum" => some 10
  | "ClOrdID" => some 11
  | "MsgSeqNum" => some 34
  | "MsgType" => some 35
  | "OrderQty" => some 38
  | "OrdType" => some 40
  | "Price" => some 44
  | "SenderCompID" => some 49
  | "SendingTime" => some 52
  | "Side" => some 54
  | "Symbol" => some 55
  | "TargetCompID" => some 56
  | _ => none

/-- Modelled from the spec: `code_to_message_type` of the field dictionary
(4.1); the wire codes listed in the console UI.  Unknown codes resolve to the
empty name. -/
def codeToMessageType (c : String) : String :=
  match c with
  | "0" => "Heartbeat"
  | "5" => "Logout"
  | "8" => "ExecutionReport"
  | "A" => "Logon"
  | "D" => "NewOrderSingle"
  | "F" => "OrderCancelRequest"
  | "V" => "MarketDataRequest"
  | _ => ""

/-- Modelled from the spec: `message_type_to_code` of the field dictionary
(4.1); unresolvable names yield `none`. -/
def messageTypeToCode (n : String) : Option String :=
  match n with
  | "Heartbeat" => some "0"
  | "Logout" => some "5"
  | "ExecutionReport" => some "8"
  | "Logon" => some "A"
  | "NewOrderSingle" => some "D"
  | "OrderCancelRequest" => some "F"
  | "MarketDataRequest" => some "V"
  | _ => none

/-! ## Wire codec: decode (modelled from the spec, section 4.2) -/

/-- One parsed field of a decoded wire message (interface `ParsedField`). -/
structure ParsedField where
  tag : Nat
  name : String
  value : String
deriving Repr, DecidableEq

/-- Result of decoding a raw wire message (interface `ParseResponse`). -/
structure ParseResponse where
  msg_type : String
  fields : List ParsedField
  field_count : Nat
  raw_length : Nat
deriving Repr, DecidableEq

/-- Modelled from the spec: one segment of `Decode` (4.2).  Splits on the
first "=" only; a segment lacking "=" (or with a non-numeric tag) is skipped
by returning `none`. -/
def parseSegment (seg : List Char) : Option (Nat × String) :=
  match seg.dropWhile (fun c => c != '=') with
  | [] => none
  | _ :: rest =>
    match parseNat? (seg.takeWhile (fun c => c != '=')) with
    | some t => some (t, String.mk rest)
    | none => none

/-- Modelled from the spec: `Decode` of the wire codec (4.2); the engine core
is not among the visible sources.  Splits on SOH when present, otherwise on
the "|" ingestion alias; discards empty segments; skips malformed segments;
resolves the message type from tag 35; reports the raw byte length.  Total:
it never fails. -/
def decode (raw : String) : ParseResponse :=
  let d := if raw.data.contains SOH then SOH else '|'
  let segs := (splitOnCh d raw.data).filter (fun s => !s.isEmpty)
  let pairs := segs.filterMap parseSegment
  let fields := pairs.map (fun p => ParsedField.mk p.1 (tagToName p.1) p.2)
  let mt :=
    match pairs.find? (fun p => p.1 == 35) with
    | some p => codeToMessageType p.2
    | none => ""
  ParseResponse.mk mt fields fields.length (strBytes raw)

/-! ## Wire codec: encode (modelled from the spec, section 4.2) -/

/-- Error kinds of the send pipeline and encoder (sections 4.5 and 7). -/
inductive SendError where
  | UnknownMessageType
  | MalformedMessage
deriving Repr, DecidableEq

/-- A structured message handed to the encoder: resolved BeginString, resolved
message type wire code, and the ordered caller/session-supplied fields. -/
structure FixMessage where
  beginString : String
  msgTypeCode : String
  fields : List (Nat × String)
deriving Repr, DecidableEq

/-- One `tag=value` wire segment. -/
def fieldSeg (f : Nat × String) : List Char := natToChars f.1 ++ '=' :: f.2.data

/-- Zero-padded three-digit rendering (for the checksum). -/
def pad3 (n : Nat) : List Char :=
  let s := natToChars n
  List.replicate (3 - s.length) '0' ++ s

/-- The supplied fields completed with SendingTime(52) if not already
present (4.2). -/
def withSendingTime (fields : List (Nat × String)) (time : String) :
    List (Nat × String) :=
  if fields.any (fun f => f.1 == 52) then fields else fields ++ [(52, time)]

/-- Modelled from the spec: the body segments of `Encode` (4.2): MsgType(35),
then the supplied fields in order, then SendingTime(52) if not already
present. -/
def bodySegs (m : FixMessage) (time : String) : List (List Char) :=
  (['3', '5', '='] ++ m.msgTypeCode.data) ::
    (withSendingTime m.fields time).map fieldSeg

/-- Modelled from the spec: the full segment list of `Encode` (4.2):
BeginString(8), BodyLength(9, computed byte count of the body), the body, and
CheckSum(10, modulo-256 byte sum of everything preceding it, delimiters
included, zero-padded to three digits). -/
def encodeSegs (m : FixMessage) (time : String) : List (List Char) :=
  let body := bodySegs m time
  let bodyChars := joinD SOH body
  let head := [['8', '='] ++ m.beginString.data,
               ['9', '='] ++ natToChars (charsByteLen bodyChars)]
  let pre := joinD SOH head ++ bodyChars
  head ++ body ++ [['1', '0', '='] ++ pad3 (charsByteSum pre % 256)]

/-- Modelled from the spec: `Encode` of the wire codec (4.2); the engine core
is not among the visible sources.  Emits SOH-delimited `tag=value` pairs with
a trailing delimiter; fails with `MalformedMessage` when BeginString or the
message type code cannot be resolved (is empty). -/
def encode (m : FixMessage) (time : String) : Except SendError String :=
  if m.beginString = "" ∨ m.msgTypeCode = "" then .error .MalformedMessage
  else .ok (String.mk (joinD SOH (encodeSegs m time)))

instance (α β : Type) [DecidableEq α] [DecidableEq β] :
    DecidableEq (Except α β) := fun x y =>
  match x, y with
  | .ok a, .ok b =>
    if h : a = b then isTrue (congrArg Except.ok h)
    else isFalse (fun he => h (Except.ok.inj he))
  | .error a, .error b =>
    if h : a = b then isTrue (congrArg Except.error h)
    else isFalse (fun he => h (Except.error.inj he))
  | .ok _, .error _ => isFalse (fun he => Except.noConfusion he)
  | .error _, .ok _ => isFalse (fun he => Except.noConfusion he)

/-- Well-formed encoder input: resolvable BeginString and message type code,
no SOH inside either, and every field a positive tag with an SOH-free value. -/
def WellFormedMsg (m : FixMessage) : Prop :=
  m.beginString ≠ "" ∧ m.msgTypeCode ≠ "" ∧
  SOH ∉ m.beginString.data ∧ SOH ∉ m.msgTypeCode.data ∧
  ∀ f ∈ m.fields, 0 < f.1 ∧ SOH ∉ f.2.data

instance : DecidablePred WellFormedMsg := fun m => by
  unfold WellFormedMsg; infer_instance

/-! ## Validation engine (modelled from the spec, section 4.3) -/

/-- One validation error (interface `ValidationError`). -/
structure ValidationError where
  field : String
  tag : Nat
  message : String
deriving Repr, DecidableEq

/-- Result of `Validate` (interface `ValidateResponse`). -/
structure ValidateResponse where
  valid : Bool
  version : String
  msg_type : String
  errors : List ValidationError
deriving Repr, DecidableEq

/-- The universal header tags required when the (version, message type) pair
is unknown (section 4.3's graceful fallback). -/
def headerOnlyReq : List (Nat × String) :=
  [(8, "BeginString"), (9, "BodyLength"), (35, "MsgType"),
   (49, "SenderCompID"), (56, "TargetCompID"), (34, "MsgSeqNum"),
   (52, "SendingTime")]

/-- Modelled from the spec: the static required-tag rule table keyed by
(fix version, message type code) (sections 3 and 4.3).  The NewOrderSingle
rule is fixed by the spec's validation scenario (exactly one error, tag 11,
for a map missing only ClOrdID); unknown pairs degrade to the universal
header rule. -/
def ruleFor (version code : String) : List (Nat × String) :=
  if (version = "FIX.4.2" ∨ version = "FIX.4.4" ∨ version = "FIX.5.0") ∧
      code = "D" then
    [(8, "BeginString"), (35, "MsgType"), (49, "SenderCompID"),
     (56, "TargetCompID"), (34, "MsgSeqNum"), (52, "SendingTime"),
     (11, "ClOrdID"), (55, "Symbol"), (54, "Side"), (38, "OrderQty")]
  else headerOnlyReq

/-- Look up a field in a name-keyed field map, also accepting the numeric tag
as key. -/
def getVal (m : List (String × String)) (tag : Nat) (name : String) :
    Option String :=
  (m.find? (fun kv => kv.1 == name || kv.1 == Nat.repr tag)).map (fun kv => kv.2)

/-- A required tag is satisfied when it is present and non-empty (4.3). -/
def isPresent (m : List (String × String)) (tag : Nat) (name : String) : Bool :=
  match getVal m tag name with
  | some v => !(v == "")
  | none => false

/-- Modelled from the spec: `Validate` of the validation engine (4.3); the
engine core is not among the visible sources.  Resolves the message type from
the MsgType field, iterates the rule list in its defined order, appends one
error per absent-or-empty required tag, with `valid` true iff no errors. -/
def validate (m : List (String × String)) (version : String) :
    ValidateResponse :=
  let code := (getVal m 35 "MsgType").getD ""
  let name := codeToMessageType code
  let errs := (ruleFor version code).filterMap fun r =>
    if isPresent m r.1 r.2 then none
    else some (ValidationError.mk r.2 r.1
      (name ++ " requires " ++ r.2 ++ " (tag " ++ Nat.repr r.1 ++ ")."))
  ValidateResponse.mk errs.isEmpty version name errs

/-! ## Session registry (modelled from the spec, section 4.4) -/

/-- Session lifecycle states (section 4.4). -/
inductive SessionState where
  | ACTIVE
  | LOGON_SENT
  | LOGOUT_SENT
  | DISCONNECTED
deriving Repr, DecidableEq

/-- A logical counterparty session (section 3). -/
structure Session where
  session_id : String
  sender_comp_id : String
  target_comp_id : String
  fix_version : String
  state : SessionState
  msg_seq_num : Nat
deriving Repr, DecidableEq

/-- The registry: all known sessions in creation order. -/
def Registry := List Session

/-- The stable session identifier for a sender/target pair. -/
def mkSessionId (sender target : String) : String := sender ++ "->" ++ target

/-- Modelled from the spec: `get_or_create` of the session registry (4.4);
returns the existing session for the pair or appends a fresh one with
`msg_seq_num = 0` and state ACTIVE. -/
def getOrCreate (reg : List Session) (sender target version : String) :
    Session × List Session :=
  match reg.find? (fun s => s.session_id == mkSessionId sender target) with
  | some s => (s, reg)
  | none =>
    let s := Session.mk (mkSessionId sender target) sender target version
      SessionState.ACTIVE 0
    (s, reg ++ [s])

/-- Increment the sequence counter of the session with the given id. -/
def bumpSeq (sid : String) (reg : List Session) : List Session :=
  reg.map fun t =>
    if t.session_id == sid then
      Session.mk t.session_id t.sender_comp_id t.target_comp_id t.fix_version
        t.state (t.msg_seq_num + 1)
    else t

/-- Modelled from the spec: `next_sequence` of the session registry (4.4);
one atomic increment-and-return of the session's counter.  The spec's
concurrency model (section 5) serialises these atomic steps per session, so
an execution of N concurrent calls is a sequence of N such steps. -/
def nextSequence (reg : List Session) (sid : String) :
    Option Nat × List Session :=
  match reg.find? (fun s => s.session_id == sid) with
  | some s => (some (s.msg_seq_num + 1), bumpSeq sid reg)
  | none => (none, reg)

/-- Run `n` atomic `next_sequence` steps against one session, collecting the
returned values: the serialisation of `n` concurrent callers. -/
def nextSequenceRun (sid : String) : List Session → Nat → List Nat × List Session
  | reg, 0 => ([], reg)
  | reg, n + 1 =>
    match nextSequence reg sid with
    | (some v, reg') =>
      let r := nextSequenceRun sid reg' n
      (v :: r.1, r.2)
    | (none, reg') =>
      let r := nextSequenceRun sid reg' n
      (r.1, r.2)

/-! ## Send pipeline (modelled from the spec, section 4.5) -/

/-- Result of a successful send (interface `SentMessage`). -/
structure SentMessage where
  session_id : String
  msg_type : String
  sequence_number : Nat
  fix_message : String
  fields : List (String × String)
  sent_at_ms : Nat
deriving Repr, DecidableEq

/-- First value for a key in a name-keyed field map. -/
def lookupVal (m : List (String × String)) (k : String) : Option String :=
  (m.find? (fun kv => kv.1 == k)).map (fun kv => kv.2)

/-- Field names the engine always assigns itself, plus the comp ids it places
explicitly (section 4.5 step 4). -/
def reservedNames : List String :=
  ["BeginString", "MsgSeqNum", "SendingTime", "SenderCompID", "TargetCompID"]

/-- Modelled from the spec: `Send` of the send pipeline (4.5); the engine core
is not among the visible sources.  Resolves the message type first (a failure
there, or any later structural failure, leaves the registry untouched), then
resolves comp ids with the engine defaults ALICE/BROKER, gets or creates the
session, atomically assigns the next sequence number, merges engine-assigned
fields with the caller's, and encodes.  The current sending time and the
millisecond clock are passed explicitly. -/
def sendSt (msgType : String) (callerFields : List (String × String))
    (time : String) (nowMs : Nat) (reg : List Session) :
    Except SendError SentMessage × List Session :=
  match messageTypeToCode msgType with
  | none => (.error .UnknownMessageType, reg)
  | some code =>
    let sender := (lookupVal callerFields "SenderCompID").getD "ALICE"
    let target := (lookupVal callerFields "TargetCompID").getD "BROKER"
    let version := (lookupVal callerFields "BeginString").getD "FIX.4.4"
    let gc := getOrCreate reg sender target version
    let ns := nextSequence gc.2 gc.1.session_id
    let seq := ns.1.getD 0
    let extra := callerFields.filter (fun kv => !(reservedNames.contains kv.1))
    let tagFields : List (Nat × String) :=
      [(49, sender), (56, target), (34, Nat.repr seq)] ++
        extra.filterMap (fun kv => (nameToTag kv.1).map (fun t => (t, kv.2)))
    match encode (FixMessage.mk gc.1.fix_version code tagFields) time with
    | .error e => (.error e, reg)
    | .ok wire =>
      let finalFields :=
        [("BeginString", gc.1.fix_version), ("SenderCompID", sender),
         ("TargetCompID", target), ("MsgSeqNum", Nat.repr seq),
         ("SendingTime", time)] ++ extra
      (.ok (SentMessage.mk gc.1.session_id msgType seq wire finalFields nowMs),
       ns.2)

/-- Modelled from the spec: `Validate` viewed as an operation over the shared
engine state (4.3): it is a pure function of the field map and version, so it
is given the registry only to show it neither reads nor writes it. -/
def validateSt (m : List (String × String)) (version : String)
    (reg : List Session) : ValidateResponse × List Session :=
  (validate m version, reg)

/-! ## UI store (embedded from `src/frontend/lib/hooks/use-store.ts`) -/

/-- A tagged operation result held by the store; the TypeScript `data` field
has type `any`, embedded as a type parameter. -/
structure FixResult (α : Type) where
  type : String
  data : α

/-- The zustand store state (interface `FixState`). -/
structure FixState (α : Type) where
  msgType : String
  fields : String → Option String
  rawMessage : String
  version : String
  result : Option (FixResult α)
  loading : Bool

/-- The store's `initialState` object. -/
def initialState (α : Type) : FixState α :=
  FixState.mk "NewOrderSingle" (fun _ => none) "" "FIX.4.4" none false

/-- `setField(key, value)`: spread the old fields record and set one key. -/
def setField (key value : String) (s : FixState α) : FixState α :=
  FixState.mk s.msgType
    (fun k => if k = key then some value else s.fields k)
    s.rawMessage s.version s.result s.loading

/-- `reset()`: replace the whole state with `initialState`. -/
def resetStore (α : Type) (_s : FixState α) : FixState α := initialState α

/-! ## HTTP client (embedded from `src/unnamed/part_000`) -/

/-- The observable part of a fetch response: `ok`, `status`, `statusText`,
the body text (`none` when `res.text()` rejected and the catch produced ""),
and the parsed JSON payload consumed on success. -/
structure HttpResponse (α : Type) where
  ok : Bool
  status : Nat
  statusText : String
  bodyText : Option String
  json : α

/-- The `request` helper: on `res.ok` return the parsed JSON body, otherwise
throw an `Error` whose message is the status code, the status text, and the
body text when non-empty. -/
def requestResult (res : HttpResponse α) : Except String α :=
  if res.ok then .ok res.json
  else
    let text := (res.bodyText).getD ""
    .error (Nat.repr res.status ++ " " ++ res.statusText ++
      (if text = "" then "" else ": " ++ text))

/-- `fixClient.send`: delegates to `request` on the response it receives. -/
def clientSend (res : HttpResponse α) : Except String α := requestResult res

/-- `fixClient.parse`: delegates to `request`. -/
def clientParse (res : HttpResponse α) : Except String α := requestResult res

/-- `fixClient.sessions`: delegates to `request`. -/
def clientSessions (res : HttpResponse α) : Except String α := requestResult res

/-- `fixClient.validate`: delegates to `request`. -/
def clientValidate (res : HttpResponse α) : Except String α := requestResult res

/-! ## Console field-map builder (embedded from
`src/frontend/app/dashboard/console/page.tsx`, `handleValidate`) -/

/-- JS whitespace test used by `String.prototype.trim`. -/
def isWsCh (c : Char) : Bool := c = ' ' || c = '\t' || c = '\n' || c = '\r'

/-- Strip whitespace from both ends of a character list. -/
def trimChars (cs : List Char) : List Char :=
  ((cs.dropWhile isWsCh).reverse.dropWhile isWsCh).reverse

/-- The JS `trim()` of a string. -/
def jsTrim (s : String) : String := String.mk (trimChars s.data)

/-- One step of the builder: split the segment on every "=", take part 0 as
key and part 1 as value (`const [k, v] = seg.split("=")`), and store
`fields[k.trim()] = v.trim()` only when both `k` and `v` are truthy
(defined and non-empty before trimming). -/
def applySeg (acc : String → Option String) (seg : List Char) :
    String → Option String :=
  let parts := splitOnCh '=' seg
  let k := String.mk (parts.headD [])
  match parts.drop 1 with
  | [] => acc
  | v :: _ =>
    if k ≠ "" ∧ String.mk v ≠ "" then
      fun key => if key = jsTrim k then some (jsTrim (String.mk v)) else acc key
    else acc

/-- The field map `handleValidate` builds from the raw message: split on SOH
when the message contains one, otherwise on "|", and fold every segment
through `applySeg`. -/
def buildFieldMap (raw : String) : String → Option String :=
  let d := if raw.data.contains SOH then SOH else '|'
  (splitOnCh d raw.data).foldl applySeg (fun _ => none)

/-! ## Concrete instances used in scenario theorems -/

/-- A concrete well-formed encoder input without a SendingTime field. -/
def c3msg : FixMessage :=
  FixMessage.mk "FIX.4.4" "D" [(11, "ORD001"), (55, "AAPL")]

/-- The wire string produced by encoding `c3msg`. -/
def c3wire : String :=
  match encode c3msg "20260223-00:00:00.000" with
  | .ok w => w
  | .error _ => ""

/-- The caller field map of the spec's send scenario. -/
def c4fields : List (String × String) :=
  [("SenderCompID", "ALICE"), ("TargetCompID", "BROKER"),
   ("ClOrdID", "ORD001"), ("Symbol", "AAPL"), ("Side", "1"),
   ("OrderQty", "100"), ("OrdType", "2"), ("Price", "150.00")]

/-- The field map of the spec's validation scenario (missing ClOrdID). -/
def c5map : List (String × String) :=
  [("BeginString", "FIX.4.4"), ("MsgType", "D"), ("SenderCompID", "ALICE"),
   ("TargetCompID", "BROKER"), ("MsgSeqNum", "1"), ("SendingTime", "..."),
   ("Symbol", "AAPL"), ("Side", "1"), ("OrderQty", "100")]

/-- A concrete session with sequence counter 5. -/
def demoSession : Session :=
  Session.mk "A->B" "A" "B" "FIX.4.4" SessionState.ACTIVE 5

/-- A concrete one-session registry. -/
def demoReg : List Session := [demoSession]

/-! ## Helper lemmas: digits -/

theorem charToDigit_digitChar (d : Nat) (h : d < 10) :
    charToDigit (digitChar d) = d := by
  interval_cases d <;> rfl

theorem isDigitCh_digitChar (d : Nat) (h : d < 10) :
    isDigitCh (digitChar d) = true := by
  interval_cases d <;> rfl

theorem isDigitCh_ne (c : Char) (h : isDigitCh c = true) :
    c ≠ '=' ∧ c ≠ SOH ∧ c ≠ '|' := by
  refine ⟨?_, ?_, ?_⟩ <;> intro he <;> subst he <;> exact absurd h (by decide)

theorem natToCharsAux_acc (fuel n : Nat) (acc : List Char) (h : n < fuel) :
    natToCharsAux fuel n acc = natToCharsAux fuel n [] ++ acc := by
  induction fuel generalizing n acc with
  | zero => omega
  | succ f ih =>
    by_cases h10 : n < 10
    · simp [natToCharsAux, h10]
    · have hdiv : n / 10 < f := by omega
      rw [natToCharsAux, natToCharsAux, if_neg h10, if_neg h10,
        ih (n / 10) _ hdiv, ih (n / 10) [digitChar (n % 10)] hdiv,
        List.append_assoc]
      rfl

theorem natToCharsAux_digits (fuel n : Nat) (h : n < fuel) :
    ∀ c ∈ natToCharsAux fuel n [], isDigitCh c = true := by
  induction fuel generalizing n with
  | zero => omega
  | succ f ih =>
    by_cases h10 : n < 10
    · simp only [natToCharsAux, if_pos h10]
      intro c hc
      rcases List.mem_singleton.mp hc with rfl
      exact isDigitCh_digitChar n h10
    · have hdiv : n / 10 < f := by omega
      rw [natToCharsAux, if_neg h10, natToCharsAux_acc f _ _ hdiv]
      intro c hc
      rcases List.mem_append.mp hc with hc | hc
      · exact ih _ hdiv c hc
      · rcases List.mem_singleton.mp hc with rfl
        exact isDigitCh_digitChar _ (Nat.mod_lt _ (by norm_num))

theorem natToCharsAux_ne_nil (fuel n : Nat) (h : n < fuel) :
    natToCharsAux fuel n [] ≠ [] := by
  induction fuel generalizing n with
  | zero => omega
  | succ f ih =>
    by_cases h10 : n < 10
    · simp [natToCharsAux, h10]
    · have hdiv : n / 10 < f := by omega
      rw [natToCharsAux, if_neg h10, natToCharsAux_acc f _ _ hdiv]
      simp

theorem natToCharsAux_foldl (fuel n : Nat) (h : n < fuel) (a : Nat) :
    (natToCharsAux fuel n []).foldl (fun x c => 10 * x + charToDigit c) a =
      a * 10 ^ (natToCharsAux fuel n []).length + n := by
  induction fuel generalizing n a with
  | zero => omega
  | succ f ih =>
    by_cases h10 : n < 10
    · simp [natToCharsAux, h10, charToDigit_digitChar n h10]
      ring
    · have hdiv : n / 10 < f := by omega
      rw [natToCharsAux, if_neg h10, natToCharsAux_acc f _ _ hdiv,
        List.foldl_append, List.length_append, ih _ hdiv]
      simp [charToDigit_digitChar _ (Nat.mod_lt n (by norm_num))]
      rw [pow_succ]
      have := Nat.div_add_mod n 10
      ring_nf
      omega

theorem parseNat?_natToChars (n : Nat) : parseNat? (natToChars n) = some n := by
  unfold parseNat? natToChars
  rw [if_neg, if_pos]
  · rw [natToCharsAux_foldl (n + 1) n (Nat.lt_succ_self n) 0]
    simp
  · exact List.all_eq_true.mpr (natToCharsAux_digits (n + 1) n (Nat.lt_succ_self n))
  · simp [List.isEmpty_iff, natToCharsAux_ne_nil (n + 1) n (Nat.lt_succ_self n)]

theorem natToChars_digits (n : Nat) :
    ∀ c ∈ natToChars n, isDigitCh c = true :=
  natToCharsAux_digits (n + 1) n (Nat.lt_succ_self n)

theorem natToChars_ne_nil (n : Nat) : natToChars n ≠ [] :=
  natToCharsAux_ne_nil (n + 1) n (Nat.lt_succ_self n)

/-! ## Helper lemmas: splitting and joining -/

theorem splitOnCh_append_cons (d : Char) (s rest : List Char) (h : d ∉ s) :
    splitOnCh d (s ++ d :: rest) = s :: splitOnCh d rest := by
  induction s with
  | nil => simp [splitOnCh]
  | cons c cs ih =>
    have hc : c ≠ d := fun he => h (he ▸ List.mem_cons_self c cs)
    have hcs : d ∉ cs := fun hm => h (List.mem_cons_of_mem c hm)
    simp only [List.cons_append, splitOnCh, if_neg hc, List.append_eq, ih hcs]

theorem splitOnCh_joinD (d : Char) (segs : List (List Char))
    (h : ∀ s ∈ segs, d ∉ s) :
    splitOnCh d (joinD d segs) = segs ++ [[]] := by
  induction segs with
  | nil => rfl
  | cons s ss ih =>
    have hs : d ∉ s := h s (List.mem_cons_self s ss)
    have hss : ∀ t ∈ ss, d ∉ t := fun t ht => h t (List.mem_cons_of_mem s ht)
    show splitOnCh d (s ++ d :: joinD d ss) = (s :: ss) ++ [[]]
    rw [splitOnCh_append_cons d s _ hs, ih hss]
    rfl

theorem takeWhile_middle (p : Char → Bool) (xs ys : List Char) (y : Char)
    (hx : ∀ c ∈ xs, p c = true) (hy : p y = false) :
    (xs ++ y :: ys).takeWhile p = xs := by
  induction xs with
  | nil => simp [List.takeWhile, hy]
  | cons c cs ih =>
    have hc := hx c (List.mem_cons_self c cs)
    simp only [List.cons_append, List.takeWhile, hc, List.append_eq]
    rw [ih (fun a ha => hx a (List.mem_cons_of_mem c ha))]

theorem dropWhile_middle (p : Char → Bool) (xs ys : List Char) (y : Char)
    (hx : ∀ c ∈ xs, p c = true) (hy : p y = false) :
    (xs ++ y :: ys).dropWhile p = y :: ys := by
  induction xs with
  | nil => simp [List.dropWhile, hy]
  | cons c cs ih =>
    have hc := hx c (List.mem_cons_self c cs)
    simp only [List.cons_append, List.dropWhile, hc, List.append_eq]
    exact ih (fun a ha => hx a (List.mem_cons_of_mem c ha))

theorem parseSegment_pre (pre rest : List Char) (t : Nat)
    (hd : ∀ c ∈ pre, isDigitCh c = true) (hp : parseNat? pre = some t) :
    parseSegment (pre ++ '=' :: rest) = some (t, String.mk rest) := by
  have hne : ∀ c ∈ pre, (c != '=') = true := by
    intro c hc
    have := (isDigitCh_ne c (hd c hc)).1
    simpa using this
  unfold parseSegment
  rw [dropWhile_middle _ _ _ _ hne (by simp), takeWhile_middle _ _ _ _ hne (by simp), hp]

theorem parseSegment_fieldSeg (f : Nat × String) :
    parseSegment (fieldSeg f) = some (f.1, f.2) := by
  have := parseSegment_pre (natToChars f.1) f.2.data f.1 (natToChars_digits f.1)
    (parseNat?_natToChars f.1)
  simpa [fieldSeg] using this

theorem parseSegment_no_eq (seg : List Char) (h : '=' ∉ seg) :
    parseSegment seg = none := by
  unfold parseSegment
  have : seg.dropWhile (fun c => c != '=') = [] := by
    rw [List.dropWhile_eq_nil_iff]
    intro c hc
    have : c ≠ '=' := fun he => h (he ▸ hc)
    simpa using this
  rw [this]

/-! ## Helper lemmas: encoded segments -/

theorem natToChars_soh_free (n : Nat) : SOH ∉ natToChars n := by
  intro h
  exact absurd rfl (isDigitCh_ne SOH (natToChars_digits n SOH h)).2.1

theorem pad3_digits (n : Nat) : ∀ c ∈ pad3 n, isDigitCh c = true := by
  intro c hc
  unfold pad3 at hc
  rcases List.mem_append.mp hc with h | h
  · rcases List.eq_of_mem_replicate h with rfl
    decide
  · exact natToChars_digits n c h

theorem pad3_soh_free (n : Nat) : SOH ∉ pad3 n := by
  intro h
  exact absurd rfl (isDigitCh_ne SOH (pad3_digits n SOH h)).2.1

theorem fieldSeg_soh_free (f : Nat × String) (hv : SOH ∉ f.2.data) :
    SOH ∉ fieldSeg f := by
  unfold fieldSeg
  intro hmem
  rcases List.mem_append.mp hmem with h | h
  · exact natToChars_soh_free f.1 h
  · rcases List.mem_cons.mp h with h | h
    · exact absurd h (by decide)
    · exact hv h

theorem mem_withSendingTime (fields : List (Nat × String)) (time : String)
    (f : Nat × String) (h : f ∈ withSendingTime fields time) :
    f ∈ fields ∨ f = (52, time) := by
  unfold withSendingTime at h
  by_cases hc : fields.any (fun f => f.1 == 52)
  · rw [if_pos hc] at h; exact Or.inl h
  · rw [if_neg hc] at h
    rcases List.mem_append.mp h with h | h
    · exact Or.inl h
    · exact Or.inr (List.mem_singleton.mp h)

theorem encodeSegs_soh_free (m : FixMessage) (time : String)
    (hm : WellFormedMsg m) (ht : SOH ∉ time.data) :
    ∀ s ∈ encodeSegs m time, SOH ∉ s := by
  intro s hs
  have hbody : ∀ s ∈ bodySegs m time, SOH ∉ s := by
    intro s hs
    rcases List.mem_cons.mp hs with rfl | hs
    · intro hmem
      rcases List.mem_append.mp hmem with h | h
      · exact absurd h (by decide)
      · exact hm.2.2.2.1 h
    · rcases List.mem_map.mp hs with ⟨f, hf, rfl⟩
      rcases mem_withSendingTime m.fields time f hf with hf' | rfl
      · exact fieldSeg_soh_free f (hm.2.2.2.2 f hf').2
      · exact fieldSeg_soh_free _ ht
  simp only [encodeSegs] at hs
  rcases List.mem_append.mp hs with hs | hs
  · rcases List.mem_append.mp hs with hs | hs
    · rcases List.mem_cons.mp hs with rfl | hs
      · intro hmem
        rcases List.mem_append.mp hmem with h | h
        · exact absurd h (by decide)
        · exact hm.2.2.1 h
      · rcases List.mem_singleton.mp hs with rfl
        intro hmem
        rcases List.mem_append.mp hmem with h | h
        · exact absurd h (by decide)
        · exact natToChars_soh_free _ h
    · exact hbody s hs
  · rcases List.mem_singleton.mp hs with rfl
    intro hmem
    rcases List.mem_append.mp hmem with h | h
    · exact absurd h (by decide)
    · exact pad3_soh_free _ h

theorem encodeSegs_ne_nil (m : FixMessage) (time : String) :
    ∀ s ∈ encodeSegs m time, s ≠ [] := by
  intro s hs
  simp only [encodeSegs] at hs
  rcases List.mem_append.mp hs with hs | hs
  · rcases List.mem_append.mp hs with hs | hs
    · rcases List.mem_cons.mp hs with rfl | hs
      · simp
      · rcases List.mem_singleton.mp hs with rfl
        simp
    · rcases List.mem_cons.mp hs with rfl | hs
      · simp
      · rcases List.mem_map.mp hs with ⟨f, _, rfl⟩
        unfold fieldSeg
        rcases natToChars f.1 with _ | ⟨c, cs⟩ <;> simp
  · rcases List.mem_singleton.mp hs with rfl
    simp

theorem filterMap_fieldSegs (fs : List (Nat × String)) :
    (fs.map fieldSeg).filterMap parseSegment = fs := by
  induction fs with
  | nil => rfl
  | cons f fs ih =>
    rw [List.map_cons, List.filterMap_cons, parseSegment_fieldSeg f, ih,
      Prod.mk.eta]

theorem mem_joinD (d : Char) (segs : List (List Char)) (h : segs ≠ []) :
    d ∈ joinD d segs := by
  cases segs with
  | nil => exact absurd rfl h
  | cons s ss =>
    show d ∈ s ++ d :: joinD d ss
    exact List.mem_append_right s (List.mem_cons_self d _)

theorem decode_encode_pairs (m : FixMessage) (time : String)
    (hm : WellFormedMsg m) (ht : SOH ∉ time.data) :
    ∃ bl ck : String,
      (decode (String.mk (joinD SOH (encodeSegs m time)))).fields.map
          (fun pf => (pf.tag, pf.value)) =
        (8, m.beginString) :: (9, bl) :: (35, m.msgTypeCode) ::
          (withSendingTime m.fields time ++ [(10, ck)]) := by
  have hfree := encodeSegs_soh_free m time hm ht
  have hne := encodeSegs_ne_nil m time
  have hsegs : encodeSegs m time ≠ [] := by simp [encodeSegs]
  have hcont : (joinD SOH (encodeSegs m time)).contains SOH = true :=
    List.elem_eq_true_of_mem (mem_joinD SOH _ hsegs)
  refine ⟨String.mk (natToChars (charsByteLen (joinD SOH (bodySegs m time)))),
    String.mk (pad3 (charsByteSum (joinD SOH [['8', '='] ++ m.beginString.data,
      ['9', '='] ++ natToChars (charsByteLen (joinD SOH (bodySegs m time)))] ++
      joinD SOH (bodySegs m time)) % 256)), ?_⟩
  have h8 : parseSegment ('8' :: '=' :: m.beginString.data) =
      some (8, m.beginString) :=
    parseSegment_pre ['8'] m.beginString.data 8 (by decide) (by decide)
  have h9 : ∀ bl : Nat, parseSegment ('9' :: '=' :: natToChars bl) =
      some (9, String.mk (natToChars bl)) := fun bl =>
    parseSegment_pre ['9'] (natToChars bl) 9 (by decide) (by decide)
  have h35 : parseSegment ('3' :: '5' :: '=' :: m.msgTypeCode.data) =
      some (35, m.msgTypeCode) :=
    parseSegment_pre ['3', '5'] m.msgTypeCode.data 35 (by decide) (by decide)
  have hck : ∀ n : Nat, parseSegment ('1' :: '0' :: '=' :: pad3 n) =
      some (10, String.mk (pad3 n)) := fun n =>
    parseSegment_pre ['1', '0'] (pad3 n) 10 (by decide) (by decide)
  have hfilter0 : (List.filter (fun s => !s.isEmpty) [([] : List Char)]) = [] :=
    rfl
  have hfilter1 : (encodeSegs m time).filter (fun s => !s.isEmpty) =
      encodeSegs m time := by
    refine List.filter_eq_self.mpr ?_
    intro s hs
    simpa [List.isEmpty_iff] using hne s hs
  simp only [decode, hcont, if_true]
  rw [splitOnCh_joinD SOH _ hfree, List.filter_append, hfilter0, hfilter1,
    List.append_nil]
  show ((List.filterMap parseSegment (encodeSegs m time)).map
      (fun p => ParsedField.mk p.1 (tagToName p.1) p.2)).map
      (fun pf => (pf.tag, pf.value)) = _
  rw [List.map_map]
  have hcomp : ((fun pf => (pf.tag, pf.value)) ∘
      fun p : Nat × String => ParsedField.mk p.1 (tagToName p.1) p.2) = id :=
    funext fun p => rfl
  rw [hcomp, List.map_id]
  show List.filterMap parseSegment
      ((['8', '='] ++ m.beginString.data) ::
        (['9', '='] ++ natToChars (charsByteLen (joinD SOH (bodySegs m time)))) ::
        ((['3', '5', '='] ++ m.msgTypeCode.data) ::
          (withSendingTime m.fields time).map fieldSeg ++
          [['1', '0', '='] ++ pad3 _])) = _
  simp only [List.filterMap_cons, List.filterMap_append, h8, h9, h35, hck,
    filterMap_fieldSegs, List.filterMap_nil, List.cons_append, List.append_nil,
    List.nil_append]

/-! ## Helper lemmas: session registry -/

theorem nextSequence_found (reg : List Session) (sid : String) (s : Session)
    (h : reg.find? (fun t => t.session_id == sid) = some s) :
    nextSequence reg sid = (some (s.msg_seq_num + 1), bumpSeq sid reg) := by
  unfold nextSequence
  rw [h]

theorem find?_bumpSeq (reg : List Session) (sid : String) (s : Session)
    (h : reg.find? (fun t => t.session_id == sid) = some s) :
    (bumpSeq sid reg).find? (fun t => t.session_id == sid) =
      some (Session.mk s.session_id s.sender_comp_id s.target_comp_id
        s.fix_version s.state (s.msg_seq_num + 1)) := by
  unfold bumpSeq
  rw [List.find?_map]
  have hpf : ((fun t : Session => t.session_id == sid) ∘ fun t : Session =>
      if t.session_id == sid then Session.mk t.session_id t.sender_comp_id
        t.target_comp_id t.fix_version t.state (t.msg_seq_num + 1) else t) =
      (fun t : Session => t.session_id == sid) := by
    funext t
    by_cases hc : (t.session_id == sid) = true
    · simp [Function.comp, hc]
    · simp [Function.comp, hc]
  rw [hpf, h]
  have hs := List.find?_some h
  simp only [Option.map_some']
  rw [if_pos hs]

theorem nextSequenceRun_spec (sid : String) (N : Nat) :
    ∀ (reg : List Session) (s : Session),
      reg.find? (fun t => t.session_id == sid) = some s →
      (nextSequenceRun sid reg N).1 =
        (List.range N).map (fun i => s.msg_seq_num + 1 + i) := by
  induction N with
  | zero => intro reg s _; rfl
  | succ n ih =>
    intro reg s h
    have hstep := nextSequence_found reg sid s h
    have hfind := find?_bumpSeq reg sid s h
    simp only [nextSequenceRun, hstep]
    rw [ih (bumpSeq sid reg) _ hfind]
    rw [List.range_succ_eq_map, List.map_cons, List.map_map, Nat.add_zero]
    refine congrArg (List.cons (s.msg_seq_num + 1)) (List.map_congr_left ?_)
    intro i _
    show s.msg_seq_num + 1 + 1 + i = s.msg_seq_num + 1 + (i + 1)
    omega

/-! ## Claim theorems -/

/-- Claim C1: for every session and every number N of concurrent Send calls
against it, the serialisation of the N atomic `next_sequence` steps returns
exactly the values prev+1, ..., prev+N where prev is the session's counter
before the calls: no duplicates and no gaps. -/
theorem c1_sequence_numbers_exact (reg : List Session) (sid : String)
    (s : Session) (N : Nat)
    (h : reg.find? (fun t => t.session_id == sid) = some s) :
    (nextSequenceRun sid reg N).1 =
      (List.range N).map (fun i => s.msg_seq_num + 1 + i) ∧
    (nextSequenceRun sid reg N).1.Nodup ∧
    (∀ v, v ∈ (nextSequenceRun sid reg N).1 ↔
      s.msg_seq_num + 1 ≤ v ∧ v ≤ s.msg_seq_num + N) := by
  have hspec := nextSequenceRun_spec sid N reg s h
  refine ⟨hspec, ?_, ?_⟩
  · rw [hspec]
    refine List.Nodup.map ?_ (List.nodup_range N)
    intro a b hab
    have hab' : s.msg_seq_num + 1 + a = s.msg_seq_num + 1 + b := hab
    omega
  · intro v
    rw [hspec]
    simp only [List.mem_map, List.mem_range]
    constructor
    · rintro ⟨i, hi, rfl⟩
      omega
    · intro hv
      exact ⟨v - s.msg_seq_num - 1, by omega, by omega⟩

/-- Witness for C1 at a concrete registry whose session counter is 5 and
three calls: the returned values are 6, 7, 8. -/
theorem c1_witness :
    (nextSequenceRun "A->B" demoReg 3).1 =
      (List.range 3).map (fun i => demoSession.msg_seq_num + 1 + i) ∧
    (nextSequenceRun "A->B" demoReg 3).1.Nodup ∧
    (∀ v, v ∈ (nextSequenceRun "A->B" demoReg 3).1 ↔
      demoSession.msg_seq_num + 1 ≤ v ∧ v ≤ demoSession.msg_seq_num + 3) :=
  c1_sequence_numbers_exact demoReg "A->B" demoSession 3 (by decide)

/-- Claim C6: decoding "8=FIX.4.4|35=D|49=ALICE" (pipe alias, no trailing
delimiter) yields exactly three fields, message type "NewOrderSingle" and
raw length 23 (the input's byte length); in general a segment splits on its
first "=" only, and a segment lacking "=" is skipped (decode is a total
function: it never fails). -/
theorem c6_tolerant_parse :
    decode "8=FIX.4.4|35=D|49=ALICE" =
      ParseResponse.mk "NewOrderSingle"
        [ParsedField.mk 8 "BeginString" "FIX.4.4",
         ParsedField.mk 35 "MsgType" "D",
         ParsedField.mk 49 "SenderCompID" "ALICE"] 3 23 ∧
    strBytes "8=FIX.4.4|35=D|49=ALICE" = 23 ∧
    (∀ (pre rest : List Char) (t : Nat), (∀ c ∈ pre, isDigitCh c = true) →
      parseNat? pre = some t →
      parseSegment (pre ++ '=' :: rest) = some (t, String.mk rest)) ∧
    (∀ seg : List Char, '=' ∉ seg → parseSegment seg = none) := by
  refine ⟨by decide, by decide, ?_, ?_⟩
  · intro pre rest t hd hp
    exact parseSegment_pre pre rest t hd hp
  · intro seg h
    exact parseSegment_no_eq seg h

/-- Witness for C6's general parts: a first-"="-only split keeping "=" inside
the value, and a skipped "="-free segment. -/
theorem c6_witness :
    parseSegment (['4', '9'] ++ '=' :: ['A', '=', 'B']) =
      some (49, String.mk ['A', '=', 'B']) ∧
    parseSegment ['X', 'Y'] = none :=
  ⟨c6_tolerant_parse.2.2.1 ['4', '9'] ['A', '=', 'B'] 49 (by decide) (by decide),
   c6_tolerant_parse.2.2.2 ['X', 'Y'] (by decide)⟩

/-- Claim C5: validating the scenario field map (missing ClOrdID, tag 11)
against "FIX.4.4" yields valid = false with exactly one error referencing
tag 11/ClOrdID in the required message form; in general `valid` is true iff
the error list is empty. -/
theorem c5_validation_scenario :
    validate c5map "FIX.4.4" =
      ValidateResponse.mk false "FIX.4.4" "NewOrderSingle"
        [ValidationError.mk "ClOrdID" 11
          "NewOrderSingle requires ClOrdID (tag 11)."] ∧
    (∀ (m : List (String × String)) (v : String),
      (validate m v).valid = true ↔ (validate m v).errors = []) := by
  refine ⟨by decide, ?_⟩
  intro m v
  simp [validate, List.isEmpty_iff]

/-- Claim C7: `Validate` is a deterministic pure function of the field map
and version: its result does not depend on the registry, it leaves the
registry unchanged, and it coincides with the pure `validate` on every run
(so two runs on the same input yield identical results). -/
theorem c7_validate_pure :
    ∀ (m : List (String × String)) (v : String) (reg reg' : List Session),
      (validateSt m v reg).1 = (validateSt m v reg').1 ∧
      (validateSt m v reg).2 = reg ∧
      validateSt m v reg = (validate m v, reg) := by
  intro m v reg reg'
  exact ⟨rfl, rfl, rfl⟩

/-- Claim C2: a Send whose message type cannot be resolved fails with
UnknownMessageType and returns the registry unchanged (so no session's
msg_seq_num changes); in general any failing Send leaves the registry
exactly as it was, because sequence assignment happens only inside the
successful path. -/
theorem c2_unknown_type_preserves_state (mt : String)
    (f : List (String × String)) (t : String) (ms : Nat) (reg : List Session)
    (h : messageTypeToCode mt = none) :
    sendSt mt f t ms reg = (.error .UnknownMessageType, reg) ∧
    (∀ (mt' : String) (f' : List (String × String)) (t' : String) (ms' : Nat)
        (reg' : List Session) (e : SendError),
      (sendSt mt' f' t' ms' reg').1 = .error e →
      (sendSt mt' f' t' ms' reg').2 = reg') := by
  constructor
  · unfold sendSt
    rw [h]
  · intro mt' f' t' ms' reg' e he
    simp only [sendSt] at he ⊢
    split at he
    · rfl
    · rename_i code heq
      split at he
      · rfl
      · rename_i wire heq2
        simp only [heq2] at he
        exact absurd he (by simp)

/-- Witness for C2: the unknown message type "FooBar" against the concrete
demo registry. -/
theorem c2_witness :
    sendSt "FooBar" [] "" 0 demoReg = (.error .UnknownMessageType, demoReg) :=
  (c2_unknown_type_preserves_state "FooBar" [] "" 0 demoReg (by decide)).1

/-! ## Helper lemmas: send pipeline -/

theorem find?_none_of_ne (reg : List Session) (sid : String)
    (h : ∀ s ∈ reg, s.session_id ≠ sid) :
    reg.find? (fun t => t.session_id == sid) = none :=
  List.find?_eq_none.mpr (fun x hx => by simpa using h x hx)

theorem find?_append_singleton (reg : List Session) (x : Session) (sid : String)
    (h : ∀ s ∈ reg, s.session_id ≠ sid) (hx : (x.session_id == sid) = true) :
    (reg ++ [x]).find? (fun t => t.session_id == sid) = some x := by
  rw [List.find?_append, find?_none_of_ne reg sid h]
  simp [List.find?_cons, hx]

theorem bumpSeq_no_match (reg : List Session) (sid : String)
    (h : ∀ s ∈ reg, s.session_id ≠ sid) : bumpSeq sid reg = reg := by
  induction reg with
  | nil => rfl
  | cons s ss ih =>
    have hs : (s.session_id == sid) = false := by
      simpa using h s (List.mem_cons_self s ss)
    show List.map _ (s :: ss) = s :: ss
    rw [List.map_cons]
    have ih' := ih (fun a ha => h a (List.mem_cons_of_mem s ha))
    show (if (s.session_id == sid) = true then _ else s) :: bumpSeq sid ss =
      s :: ss
    rw [if_neg (by simp [hs]), ih']

theorem bumpSeq_append_singleton (reg : List Session) (x : Session)
    (sid : String) (h : ∀ s ∈ reg, s.session_id ≠ sid)
    (hx : (x.session_id == sid) = true) :
    bumpSeq sid (reg ++ [x]) = reg ++
      [Session.mk x.session_id x.sender_comp_id x.target_comp_id
        x.fix_version x.state (x.msg_seq_num + 1)] := by
  show List.map _ (reg ++ [x]) = _
  rw [List.map_append]
  have h1 : List.map _ reg = reg := bumpSeq_no_match reg sid h
  rw [h1]
  show reg ++ [if (x.session_id == sid) = true then _ else x] = _
  rw [if_pos hx]

theorem sendSt_step (mt code sender target version : String)
    (cf : List (String × String)) (t : String) (ms : Nat) (reg : List Session)
    (sess : Session) (reg1 : List Session) (seqv : Nat) (reg2 : List Session)
    (hc : messageTypeToCode mt = some code)
    (hs : (lookupVal cf "SenderCompID").getD "ALICE" = sender)
    (htg : (lookupVal cf "TargetCompID").getD "BROKER" = target)
    (hvv : (lookupVal cf "BeginString").getD "FIX.4.4" = version)
    (hg : getOrCreate reg sender target version = (sess, reg1))
    (hn : nextSequence reg1 sess.session_id = (some seqv, reg2))
    (hfv : ¬(sess.fix_version = "" ∨ code = "")) :
    (sendSt mt cf t ms reg).1.map SentMessage.sequence_number = .ok seqv ∧
    (sendSt mt cf t ms reg).1.map SentMessage.session_id =
      .ok sess.session_id ∧
    (sendSt mt cf t ms reg).2 = reg2 := by
  simp only [sendSt, hc, hs, htg, hvv, hg, hn, Option.getD_some, encode,
    if_neg hfv]
  simp [Except.map]

/-- Claim C4: starting from a registry with no session for (ALICE, BROKER),
the spec's NewOrderSingle send scenario returns sequence number 1 from the
first call and 2 from the second, both against session "ALICE->BROKER". -/
theorem c4_send_twice (t1 t2 : String) (ms1 ms2 : Nat) (reg : List Session)
    (h : ∀ s ∈ reg, s.session_id ≠ "ALICE->BROKER") :
    (sendSt "NewOrderSingle" c4fields t1 ms1 reg).1.map
      SentMessage.sequence_number = .ok 1 ∧
    (sendSt "NewOrderSingle" c4fields t1 ms1 reg).1.map
      SentMessage.session_id = .ok "ALICE->BROKER" ∧
    (sendSt "NewOrderSingle" c4fields t2 ms2
        (sendSt "NewOrderSingle" c4fields t1 ms1 reg).2).1.map
      SentMessage.sequence_number = .ok 2 ∧
    (sendSt "NewOrderSingle" c4fields t2 ms2
        (sendSt "NewOrderSingle" c4fields t1 ms1 reg).2).1.map
      SentMessage.session_id = .ok "ALICE->BROKER" := by
  have hf0 : reg.find? (fun t => t.session_id == "ALICE->BROKER") = none :=
    find?_none_of_ne reg _ h
  have hf1 : (reg ++ [Session.mk "ALICE->BROKER" "ALICE" "BROKER" "FIX.4.4"
      SessionState.ACTIVE 0]).find?
      (fun t => t.session_id == "ALICE->BROKER") =
      some (Session.mk "ALICE->BROKER" "ALICE" "BROKER" "FIX.4.4"
        SessionState.ACTIVE 0) :=
    find?_append_singleton reg _ _ h (by decide)
  have hf2 : (reg ++ [Session.mk "ALICE->BROKER" "ALICE" "BROKER" "FIX.4.4"
      SessionState.ACTIVE 1]).find?
      (fun t => t.session_id == "ALICE->BROKER") =
      some (Session.mk "ALICE->BROKER" "ALICE" "BROKER" "FIX.4.4"
        SessionState.ACTIVE 1) :=
    find?_append_singleton reg _ _ h (by decide)
  have hb1 : bumpSeq "ALICE->BROKER" (reg ++ [Session.mk "ALICE->BROKER"
      "ALICE" "BROKER" "FIX.4.4" SessionState.ACTIVE 0]) =
      reg ++ [Session.mk "ALICE->BROKER" "ALICE" "BROKER" "FIX.4.4"
        SessionState.ACTIVE 1] := by
    simpa using bumpSeq_append_singleton reg _ _ h (by decide)
  have hb2 : bumpSeq "ALICE->BROKER" (reg ++ [Session.mk "ALICE->BROKER"
      "ALICE" "BROKER" "FIX.4.4" SessionState.ACTIVE 1]) =
      reg ++ [Session.mk "ALICE->BROKER" "ALICE" "BROKER" "FIX.4.4"
        SessionState.ACTIVE 2] := by
    simpa using bumpSeq_append_singleton reg _ _ h (by decide)
  have hg1 : getOrCreate reg "ALICE" "BROKER" "FIX.4.4" =
      (Session.mk "ALICE->BROKER" "ALICE" "BROKER" "FIX.4.4"
        SessionState.ACTIVE 0,
       reg ++ [Session.mk "ALICE->BROKER" "ALICE" "BROKER" "FIX.4.4"
        SessionState.ACTIVE 0]) := by
    simp only [getOrCreate, show mkSessionId "ALICE" "BROKER" =
      "ALICE->BROKER" from rfl, hf0]
  have hg2 : getOrCreate (reg ++ [Session.mk "ALICE->BROKER" "ALICE" "BROKER"
      "FIX.4.4" SessionState.ACTIVE 1]) "ALICE" "BROKER" "FIX.4.4" =
      (Session.mk "ALICE->BROKER" "ALICE" "BROKER" "FIX.4.4"
        SessionState.ACTIVE 1,
       reg ++ [Session.mk "ALICE->BROKER" "ALICE" "BROKER" "FIX.4.4"
        SessionState.ACTIVE 1]) := by
    simp only [getOrCreate, show mkSessionId "ALICE" "BROKER" =
      "ALICE->BROKER" from rfl, hf2]
  have hn1 : nextSequence (reg ++ [Session.mk "ALICE->BROKER" "ALICE" "BROKER"
      "FIX.4.4" SessionState.ACTIVE 0]) "ALICE->BROKER" =
      (some 1, reg ++ [Session.mk "ALICE->BROKER" "ALICE" "BROKER" "FIX.4.4"
        SessionState.ACTIVE 1]) := by
    simp only [nextSequence, hf1, hb1]
  have hn2 : nextSequence (reg ++ [Session.mk "ALICE->BROKER" "ALICE" "BROKER"
      "FIX.4.4" SessionState.ACTIVE 1]) "ALICE->BROKER" =
      (some 2, reg ++ [Session.mk "ALICE->BROKER" "ALICE" "BROKER" "FIX.4.4"
        SessionState.ACTIVE 2]) := by
    simp only [nextSequence, hf2, hb2]
  have step1 := sendSt_step "NewOrderSingle" "D" "ALICE" "BROKER" "FIX.4.4"
    c4fields t1 ms1 reg _ _ 1 _ rfl rfl rfl rfl hg1 hn1 (by decide)
  have step2 := sendSt_step "NewOrderSingle" "D" "ALICE" "BROKER" "FIX.4.4"
    c4fields t2 ms2 _ _ _ 2 _ rfl rfl rfl rfl hg2 hn2 (by decide)
  refine ⟨step1.1, step1.2.1, ?_, ?_⟩
  · rw [step1.2.2]
    exact step2.1
  · rw [step1.2.2]
    exact step2.2.1

/-- Witness for C4 at the empty registry with concrete times. -/
theorem c4_witness :
    (sendSt "NewOrderSingle" c4fields "T1" 0 []).1.map
      SentMessage.sequence_number = .ok 1 ∧
    (sendSt "NewOrderSingle" c4fields "T1" 0 []).1.map
      SentMessage.session_id = .ok "ALICE->BROKER" ∧
    (sendSt "NewOrderSingle" c4fields "T2" 1
        (sendSt "NewOrderSingle" c4fields "T1" 0 []).2).1.map
      SentMessage.sequence_number = .ok 2 ∧
    (sendSt "NewOrderSingle" c4fields "T2" 1
        (sendSt "NewOrderSingle" c4fields "T1" 0 []).2).1.map
      SentMessage.session_id = .ok "ALICE->BROKER" :=
  c4_send_twice "T1" "T2" 0 1 [] (by simp)

theorem mem_withSendingTime_of_mem (fields : List (Nat × String))
    (time : String) (f : Nat × String) (h : f ∈ fields) :
    f ∈ withSendingTime fields time := by
  unfold withSendingTime
  split
  · exact h
  · exact List.mem_append_left _ h

/-- Claim C3 (amended): for every well-formed message accepted by Encode,
Decode(Encode(m)) preserves every input field of m with its tag and value
intact, and every decoded field is either an input field of m or one of the
computed fields BeginString(8), BodyLength(9), MsgType(35), SendingTime(52,
added when the input lacks it), CheckSum(10). -/
theorem c3_round_trip_superset (m : FixMessage) (time w : String)
    (hm : WellFormedMsg m) (ht : SOH ∉ time.data)
    (hw : encode m time = .ok w) :
    (∀ f ∈ m.fields, ∃ pf ∈ (decode w).fields,
      pf.tag = f.1 ∧ pf.value = f.2) ∧
    (∀ pf ∈ (decode w).fields, (pf.tag, pf.value) ∈ m.fields ∨
      pf.tag = 8 ∨ pf.tag = 9 ∨ pf.tag = 35 ∨ pf.tag = 52 ∨ pf.tag = 10) := by
  have hww : w = String.mk (joinD SOH (encodeSegs m time)) := by
    unfold encode at hw
    rw [if_neg (by push_neg; exact ⟨hm.1, hm.2.1⟩)] at hw
    injection hw with hw'
    exact hw'.symm
  subst hww
  obtain ⟨bl, ck, hpairs⟩ := decode_encode_pairs m time hm ht
  constructor
  · intro f hf
    have hmem : (f.1, f.2) ∈
        (decode (String.mk (joinD SOH (encodeSegs m time)))).fields.map
          (fun pf => (pf.tag, pf.value)) := by
      rw [hpairs, Prod.mk.eta]
      have : f ∈ withSendingTime m.fields time :=
        mem_withSendingTime_of_mem m.fields time f hf
      simp only [List.mem_cons, List.mem_append]
      tauto
    rcases List.mem_map.mp hmem with ⟨pf, hpf, heq⟩
    rcases Prod.mk.injEq .. |>.mp heq with ⟨h1, h2⟩
    exact ⟨pf, hpf, h1, h2⟩
  · intro pf hpf
    have hmem : (pf.tag, pf.value) ∈
        (decode (String.mk (joinD SOH (encodeSegs m time)))).fields.map
          (fun p => (p.tag, p.value)) := List.mem_map_of_mem _ hpf
    rw [hpairs] at hmem
    rcases List.mem_cons.mp hmem with h8 | hmem
    · right; left
      exact congrArg Prod.fst h8
    rcases List.mem_cons.mp hmem with h9 | hmem
    · right; right; left
      exact congrArg Prod.fst h9
    rcases List.mem_cons.mp hmem with h35 | hmem
    · right; right; right; left
      exact congrArg Prod.fst h35
    rcases List.mem_append.mp hmem with hmid | hck
    · rcases mem_withSendingTime m.fields time _ hmid with hin | h52
      · left
        exact hin
      · right; right; right; right; left
        exact congrArg Prod.fst h52
    · right; right; right; right; right
      exact congrArg Prod.fst (List.mem_singleton.mp hck)

set_option maxRecDepth 8192 in
/-- Counterexample to C3 as stated: `c3msg` is well formed and is accepted by
Encode, yet its decoded image contains a SendingTime(52) field that is not
among the four additions BeginString/BodyLength/MsgType/CheckSum named by the
claim, nor an input field of the message. -/
theorem c3_counterexample :
    WellFormedMsg c3msg ∧
    encode c3msg "20260223-00:00:00.000" = .ok c3wire ∧
    ¬(∀ pf ∈ (decode c3wire).fields, (pf.tag, pf.value) ∈ c3msg.fields ∨
      pf.tag = 8 ∨ pf.tag = 9 ∨ pf.tag = 35 ∨ pf.tag = 10) := by
  decide

set_option maxRecDepth 8192 in
/-- Witness for the amended C3 at the concrete message `c3msg`. -/
theorem c3_witness :
    (∀ f ∈ c3msg.fields, ∃ pf ∈ (decode c3wire).fields,
      pf.tag = f.1 ∧ pf.value = f.2) ∧
    (∀ pf ∈ (decode c3wire).fields, (pf.tag, pf.value) ∈ c3msg.fields ∨
      pf.tag = 8 ∨ pf.tag = 9 ∨ pf.tag = 35 ∨ pf.tag = 52 ∨ pf.tag = 10) :=
  c3_round_trip_superset c3msg "20260223-00:00:00.000" c3wire (by decide)
    (by decide) (by decide)

theorem splitOnCh_no_delim (d : Char) (seg : List Char) (h : d ∉ seg) :
    splitOnCh d seg = [seg] := by
  induction seg with
  | nil => rfl
  | cons c cs ih =>
    have hc : c ≠ d := fun he => h (he ▸ List.mem_cons_self c cs)
    have hcs : d ∉ cs := fun hm => h (List.mem_cons_of_mem c hm)
    show splitOnCh d (c :: cs) = [c :: cs]
    simp only [splitOnCh, if_neg hc, ih hcs]

theorem splitOnCh_cons_self (d : Char) (rest : List Char) :
    splitOnCh d (d :: rest) = [] :: splitOnCh d rest := by
  simp [splitOnCh]

/-- Counterexample to C8 as stated: the console keeps the segment "10= "
(whitespace value) because the truthiness check runs before trimming, so the
submitted map contains key "10" with an empty trimmed value — the claim's
"omits every segment whose key or value is empty after trimming" is false. -/
theorem c8_counterexample :
    buildFieldMap "10= " "10" = some "" := by decide

/-- Claim C8 (amended): the console's Validate tab splits the raw message on
SOH when one is present and on "|" otherwise; a segment keeps the text before
the first "=" as key and the text strictly between the first and second "="
as value (content after a second "=" is dropped); a segment is omitted when
it lacks "=" or when its key or value is empty before trimming (so "10=" is
omitted, though a whitespace-only value survives as an empty trimmed
value). -/
theorem c8_field_map_builder (pre mid post : List Char)
    (acc : String → Option String) (hpre : '=' ∉ pre) (hmid : '=' ∉ mid) :
    (applySeg acc (pre ++ ('=' :: (mid ++ ('=' :: post)))) =
      if pre ≠ [] ∧ mid ≠ [] then
        (fun key => if key = jsTrim (String.mk pre) then
          some (jsTrim (String.mk mid)) else acc key)
      else acc) ∧
    (∀ (a : String → Option String) (seg : List Char), '=' ∉ seg →
      applySeg a seg = a) ∧
    (∀ (a : String → Option String) (rest : List Char),
      applySeg a ('=' :: rest) = a) ∧
    buildFieldMap "10=" "10" = none ∧
    buildFieldMap "8=FIX.4.4|35=D=X" "35" = some "D" ∧
    buildFieldMap ("8=A" ++ String.mk [SOH] ++ "35=D|x") "35" = some "D|x" := by
  have hsplit : splitOnCh '=' (pre ++ ('=' :: (mid ++ ('=' :: post)))) =
      pre :: mid :: splitOnCh '=' post := by
    rw [splitOnCh_append_cons '=' pre _ hpre, splitOnCh_append_cons '=' mid _ hmid]
  refine ⟨?_, ?_, ?_, by decide, by decide, by decide⟩
  · unfold applySeg
    rw [hsplit]
    simp only [List.headD_cons, List.drop_succ_cons, List.drop_zero]
    by_cases hc : pre ≠ [] ∧ mid ≠ []
    · rw [if_pos hc, if_pos]
      constructor
      · intro hk
        exact hc.1 (congrArg String.data hk)
      · intro hv
        exact hc.2 (congrArg String.data hv)
    · rw [if_neg hc, if_neg]
      intro hc'
      exact hc ⟨fun he => hc'.1 (congrArg String.mk he), fun he =>
        hc'.2 (congrArg String.mk he)⟩
  · intro a seg h
    unfold applySeg
    rw [splitOnCh_no_delim '=' seg h]
    rfl
  · intro a rest
    unfold applySeg
    rw [splitOnCh_cons_self '=' rest]
    cases hsp : splitOnCh '=' rest with
    | nil => rfl
    | cons v vs =>
      simp only [List.headD_cons, List.drop_succ_cons, List.drop_zero]
      rw [if_neg]
      intro hc
      exact hc.1 rfl

/-- Witness for the amended C8 at a concrete two-"=" segment. -/
theorem c8_witness :
    applySeg (fun _ => none) (['3', '5'] ++ ('=' :: (['D'] ++ ('=' :: ['X'])))) =
      (if (['3', '5'] : List Char) ≠ [] ∧ (['D'] : List Char) ≠ [] then
        (fun key => if key = jsTrim (String.mk ['3', '5']) then
          some (jsTrim (String.mk ['D']))
          else (fun _ => none : String → Option String) key)
      else (fun _ => none)) :=
  (c8_field_map_builder ['3', '5'] ['D'] ['X'] (fun _ => none)
    (by decide) (by decide)).1

/-- Claim C9: every client operation (send, parse, sessions, validate)
returns the parsed JSON body when the response is ok, and otherwise produces
a thrown Error whose message contains the status code and status text, plus
the body text when available; a failure is always a thrown error, never an
ok result. -/
theorem c9_client_errors (α : Type) (res : HttpResponse α) :
    (res.ok = true →
      clientSend res = .ok res.json ∧ clientParse res = .ok res.json ∧
      clientSessions res = .ok res.json ∧ clientValidate res = .ok res.json) ∧
    (res.ok = false →
      ∃ msg : String,
        clientSend res = .error msg ∧ clientParse res = .error msg ∧
        clientSessions res = .error msg ∧ clientValidate res = .error msg ∧
        (∃ pre post : List Char,
          msg.data = pre ++ (Nat.repr res.status).data ++ post) ∧
        (∃ pre post : List Char,
          msg.data = pre ++ res.statusText.data ++ post) ∧
        (∀ t : String, res.bodyText = some t → t ≠ "" →
          ∃ pre post : List Char, msg.data = pre ++ t.data ++ post)) := by
  constructor
  · intro h
    refine ⟨?_, ?_, ?_, ?_⟩ <;>
      simp [clientSend, clientParse, clientSessions, clientValidate,
        requestResult, h]
  · intro h
    refine ⟨Nat.repr res.status ++ " " ++ res.statusText ++
      (if (res.bodyText.getD "") = "" then ""
       else ": " ++ res.bodyText.getD ""), ?_, ?_, ?_, ?_, ?_, ?_, ?_⟩
    · simp [clientSend, requestResult, h]
    · simp [clientParse, requestResult, h]
    · simp [clientSessions, requestResult, h]
    · simp [clientValidate, requestResult, h]
    · exact ⟨[], (" " ++ res.statusText ++
        (if (res.bodyText.getD "") = "" then ""
         else ": " ++ res.bodyText.getD "")).data,
        by simp [String.data_append, List.append_assoc]⟩
    · exact ⟨(Nat.repr res.status ++ " ").data,
        ((if (res.bodyText.getD "") = "" then ""
          else ": " ++ res.bodyText.getD "")).data,
        by simp [String.data_append, List.append_assoc]⟩
    · intro t hbt hne
      refine ⟨(Nat.repr res.status ++ " " ++ res.statusText ++ ": ").data,
        [], ?_⟩
      simp [hbt, hne, String.data_append, List.append_assoc]

/-- Witness for C9: a successful response yields the JSON payload, and a
failing 404 response yields a thrown error. -/
theorem c9_witness :
    clientSend (HttpResponse.mk true 200 "OK" none (7 : Nat)) = .ok 7 ∧
    (∃ msg : String, clientValidate
      (HttpResponse.mk false 404 "Not Found" (some "missing") (0 : Nat)) =
        .error msg) := by
  constructor
  · exact ((c9_client_errors Nat (HttpResponse.mk true 200 "OK" none 7)).1
      rfl).1
  · obtain ⟨msg, _, _, _, hv, _⟩ :=
      (c9_client_errors Nat
        (HttpResponse.mk false 404 "Not Found" (some "missing") 0)).2 rfl
    exact ⟨msg, hv⟩

/-- Claim C10: `setField(key, value)` changes only the `fields` entry at
`key`, leaving every other entry and every other store component unchanged,
and `reset()` restores exactly the initial state: msgType "NewOrderSingle",
empty fields, empty rawMessage, version "FIX.4.4", result null, loading
false. -/
theorem c10_store_frame (α : Type) (s : FixState α) (key value k : String)
    (hk : k ≠ key) :
    (setField key value s).fields key = some value ∧
    (setField key value s).fields k = s.fields k ∧
    (setField key value s).msgType = s.msgType ∧
    (setField key value s).rawMessage = s.rawMessage ∧
    (setField key value s).version = s.version ∧
    (setField key value s).result = s.result ∧
    (setField key value s).loading = s.loading ∧
    resetStore α s = initialState α ∧
    (initialState α).msgType = "NewOrderSingle" ∧
    (∀ q, (initialState α).fields q = none) ∧
    (initialState α).rawMessage = "" ∧
    (initialState α).version = "FIX.4.4" ∧
    (initialState α).result = none ∧
    (initialState α).loading = false := by
  refine ⟨?_, ?_, rfl, rfl, rfl, rfl, rfl, rfl, rfl, fun q => rfl, rfl, rfl,
    rfl, rfl⟩
  · simp [setField]
  · simp [setField, hk]

/-- Witness for C10 at a concrete store state and keys. -/
theorem c10_witness :
    (setField "Symbol" "AAPL" (initialState Unit)).fields "Symbol" =
      some "AAPL" ∧
    (setField "Symbol" "AAPL" (initialState Unit)).fields "Side" =
      (initialState Unit).fields "Side" ∧
    (setField "Symbol" "AAPL" (initialState Unit)).msgType =
      (initialState Unit).msgType ∧
    (setField "Symbol" "AAPL" (initialState Unit)).rawMessage =
      (initialState Unit).rawMessage ∧
    (setField "Symbol" "AAPL" (initialState Unit)).version =
      (initialState Unit).version ∧
    (setField "Symbol" "AAPL" (initialState Unit)).result =
      (initialState Unit).result ∧
    (setField "Symbol" "AAPL" (initialState Unit)).loading =
      (initialState Unit).loading ∧
    resetStore Unit (initialState Unit) = initialState Unit ∧
    (initialState Unit).msgType = "NewOrderSingle" ∧
    (∀ q, (initialState Unit).fields q = none) ∧
    (initialState Unit).rawMessage = "" ∧
    (initialState Unit).version = "FIX.4.4" ∧
    (initialState Unit).result = none ∧
    (initialState Unit).loading = false :=
  c10_store_frame Unit (initialState Unit) "Symbol" "AAPL" "Side" (by decide)
